import Mathlib

/-!
Shallow embedding of the column-type encoding core of the `datatable`
repository (source file `src/c/types.h`): logical and storage type
catalogues, the per-storage-type info registry, NA sentinels, and the
family codecs (variable-width string, fixed-width string, dictionary
string, fixed-point decimal, packed datetime).  Machine integers are
modelled as `Int`/`Nat` with explicit two's-complement conversion where
bit patterns matter; raw bytes are `Nat` values below 256.
-/

namespace DT

/-- "Logical" type of a data column, from `enum LType` in `src/c/types.h`. -/
inductive LType where
  | LT_MU
  | LT_BOOLEAN
  | LT_INTEGER
  | LT_REAL
  | LT_STRING
  | LT_DATETIME
  | LT_DURATION
  | LT_OBJECT
  deriving DecidableEq, Repr, Fintype

/-- The numeric value of each `LType` enumerator, as assigned in the source. -/
def LType.toOrdinal : LType → Nat
  | .LT_MU       => 0
  | .LT_BOOLEAN  => 1
  | .LT_INTEGER  => 2
  | .LT_REAL     => 3
  | .LT_STRING   => 4
  | .LT_DATETIME => 5
  | .LT_DURATION => 6
  | .LT_OBJECT   => 7

/-- `DT_LTYPES_COUNT` from the source: one plus the largest `LT` ordinal. -/
def DT_LTYPES_COUNT : Nat := LType.LT_OBJECT.toOrdinal + 1

/-- "Storage" type of a data column, from `enum SType` in `src/c/types.h`. -/
inductive SType where
  | ST_VOID
  | ST_BOOLEAN_I1
  | ST_INTEGER_I1
  | ST_INTEGER_I2
  | ST_INTEGER_I4
  | ST_INTEGER_I8
  | ST_REAL_F4
  | ST_REAL_F8
  | ST_REAL_I2
  | ST_REAL_I4
  | ST_REAL_I8
  | ST_STRING_I4_VCHAR
  | ST_STRING_I8_VCHAR
  | ST_STRING_FCHAR
  | ST_STRING_U1_ENUM
  | ST_STRING_U2_ENUM
  | ST_STRING_U4_ENUM
  | ST_DATETIME_I8_EPOCH
  | ST_DATETIME_I8_PRTMN
  | ST_DATETIME_I4_TIME
  | ST_DATETIME_I4_DATE
  | ST_DATETIME_I2_MONTH
  | ST_OBJECT_PYPTR
  deriving DecidableEq, Repr, Fintype

/-- The numeric value of each `SType` enumerator, as assigned in the source. -/
def SType.toOrdinal : SType → Nat
  | .ST_VOID              => 0
  | .ST_BOOLEAN_I1        => 1
  | .ST_INTEGER_I1        => 2
  | .ST_INTEGER_I2        => 3
  | .ST_INTEGER_I4        => 4
  | .ST_INTEGER_I8        => 5
  | .ST_REAL_F4           => 6
  | .ST_REAL_F8           => 7
  | .ST_REAL_I2           => 8
  | .ST_REAL_I4           => 9
  | .ST_REAL_I8           => 10
  | .ST_STRING_I4_VCHAR   => 11
  | .ST_STRING_I8_VCHAR   => 12
  | .ST_STRING_FCHAR      => 13
  | .ST_STRING_U1_ENUM    => 14
  | .ST_STRING_U2_ENUM    => 15
  | .ST_STRING_U4_ENUM    => 16
  | .ST_DATETIME_I8_EPOCH => 17
  | .ST_DATETIME_I8_PRTMN => 18
  | .ST_DATETIME_I4_TIME  => 19
  | .ST_DATETIME_I4_DATE  => 20
  | .ST_DATETIME_I2_MONTH => 21
  | .ST_OBJECT_PYPTR      => 22

/-- `DT_STYPES_COUNT` from the source: one plus the largest `ST` ordinal. -/
def DT_STYPES_COUNT : Nat := SType.ST_OBJECT_PYPTR.toOrdinal + 1

/-- `struct STypeInfo` from `src/c/types.h`: per-storage-type facts.  The
3-character `code[4]` label of the C struct carries no semantics used by
any codec and its concrete values live outside `src/`, so it is omitted
here; `elemsize`, `hasmeta` and `ltype` are kept. -/
structure STypeInfo where
  elemsize : Nat
  hasmeta  : Bool
  ltype    : LType
  deriving DecidableEq, Repr

/-- Modelled from the spec: the contents of the process-wide constant
table `stype_info[DT_STYPES_COUNT]` are only declared `extern` in
`src/c/types.h`; the per-variant element sizes, metadata requirements and
logical-type mapping are taken from the registry description in the spec
and the per-`SType` documentation in the header. -/
def stype_info : SType → STypeInfo
  | .ST_VOID              => ⟨0, false, .LT_MU⟩
  | .ST_BOOLEAN_I1        => ⟨1, false, .LT_BOOLEAN⟩
  | .ST_INTEGER_I1        => ⟨1, false, .LT_INTEGER⟩
  | .ST_INTEGER_I2        => ⟨2, false, .LT_INTEGER⟩
  | .ST_INTEGER_I4        => ⟨4, false, .LT_INTEGER⟩
  | .ST_INTEGER_I8        => ⟨8, false, .LT_INTEGER⟩
  | .ST_REAL_F4           => ⟨4, false, .LT_REAL⟩
  | .ST_REAL_F8           => ⟨8, false, .LT_REAL⟩
  | .ST_REAL_I2           => ⟨2, true,  .LT_REAL⟩
  | .ST_REAL_I4           => ⟨4, true,  .LT_REAL⟩
  | .ST_REAL_I8           => ⟨8, true,  .LT_REAL⟩
  | .ST_STRING_I4_VCHAR   => ⟨4, true,  .LT_STRING⟩
  | .ST_STRING_I8_VCHAR   => ⟨8, true,  .LT_STRING⟩
  | .ST_STRING_FCHAR      => ⟨0, true,  .LT_STRING⟩
  | .ST_STRING_U1_ENUM    => ⟨1, true,  .LT_STRING⟩
  | .ST_STRING_U2_ENUM    => ⟨2, true,  .LT_STRING⟩
  | .ST_STRING_U4_ENUM    => ⟨4, true,  .LT_STRING⟩
  | .ST_DATETIME_I8_EPOCH => ⟨8, false, .LT_DATETIME⟩
  | .ST_DATETIME_I8_PRTMN => ⟨8, false, .LT_DATETIME⟩
  | .ST_DATETIME_I4_TIME  => ⟨4, false, .LT_DATETIME⟩
  | .ST_DATETIME_I4_DATE  => ⟨4, false, .LT_DATETIME⟩
  | .ST_DATETIME_I2_MONTH => ⟨2, false, .LT_DATETIME⟩
  | .ST_OBJECT_PYPTR      => ⟨8, false, .LT_OBJECT⟩

/-- The shapes of per-column metadata, mirroring the four meta structs of
`src/c/types.h`.  `DecimalMeta` for `ST_REAL_IX`, `VarcharMeta` for
`ST_STRING_IX_VCHAR`, `FixcharMeta` for `ST_STRING_FCHAR`, `EnumMeta` for
`ST_STRING_UX_ENUM`.  Bytes are `Nat` values below 256. -/
inductive Meta where
  | DecimalMeta (scale : Nat) (currency : Nat)
  | VarcharMeta (offoff : Int)
  | FixcharMeta (n : Nat)
  | EnumMeta (buffer : List Nat) (offsets : List Nat)
      (num_levels : Nat) (buffer_length : Nat)
  deriving DecidableEq, Repr

/-- Which metadata shape a storage type carries, per the comments of
`src/c/types.h` (`// ST_REAL_IX`, `// ST_STRING_IX_VCHAR`,
`// ST_STRING_FCHAR`, `// ST_STRING_UX_ENUM`): the decimal stypes carry
`DecimalMeta`, the varchar stypes `VarcharMeta`, the fixed-width string
stype `FixcharMeta`, the enum stypes `EnumMeta`, and all others none. -/
def metaShapeFor : SType → Option (Meta → Prop)
  | .ST_REAL_I2           => some (fun m => ∃ s c, m = .DecimalMeta s c)
  | .ST_REAL_I4           => some (fun m => ∃ s c, m = .DecimalMeta s c)
  | .ST_REAL_I8           => some (fun m => ∃ s c, m = .DecimalMeta s c)
  | .ST_STRING_I4_VCHAR   => some (fun m => ∃ o, m = .VarcharMeta o)
  | .ST_STRING_I8_VCHAR   => some (fun m => ∃ o, m = .VarcharMeta o)
  | .ST_STRING_FCHAR      => some (fun m => ∃ n, m = .FixcharMeta n)
  | .ST_STRING_U1_ENUM    => some (fun m => ∃ b o k l, m = .EnumMeta b o k l)
  | .ST_STRING_U2_ENUM    => some (fun m => ∃ b o k l, m = .EnumMeta b o k l)
  | .ST_STRING_U4_ENUM    => some (fun m => ∃ b o k l, m = .EnumMeta b o k l)
  | _                     => none

/-- The minimum representable value of a `w`-bit signed two's-complement
integer: `-2^(w-1)`. -/
def minSigned (w : Nat) : Int := -(2 ^ (w - 1))

/-- An integer is representable in `w`-bit signed storage iff it lies in
`[-2^(w-1), 2^(w-1) - 1]`. -/
def representable (w : Nat) (x : Int) : Prop :=
  minSigned w ≤ x ∧ x < 2 ^ (w - 1)

instance (w : Nat) (x : Int) : Decidable (representable w x) := by
  unfold representable; infer_instance

/-- `NA_I1` from the source: NA sentinel for 1-byte signed storage. -/
def NA_I1 : Int := -(2 ^ 7)

/-- `NA_I2` from the source: NA sentinel for 2-byte signed storage. -/
def NA_I2 : Int := -(2 ^ 15)

/-- `NA_I4` from the source: NA sentinel for 4-byte signed storage. -/
def NA_I4 : Int := -(2 ^ 31)

/-- `NA_I8` from the source: NA sentinel for 8-byte signed storage. -/
def NA_I8 : Int := -(2 ^ 63)

/-- `NA_U1` from the source: NA sentinel for 1-byte unsigned storage. -/
def NA_U1 : Nat := 255

/-- `NA_U2` from the source: NA sentinel for 2-byte unsigned storage. -/
def NA_U2 : Nat := 65535

/-- `NA_U4` from the source: NA sentinel for 4-byte unsigned storage. -/
def NA_U4 : Nat := 2 ^ 32 - 1

/-! ### Variable-width string codec (`ST_STRING_I4_VCHAR`, `ST_STRING_I8_VCHAR`)

The offset array of a varchar column, as described for
`ST_STRING_I4_VCHAR` in `src/c/types.h`: one signed integer per row, each
entry one past the offset of the last byte of the string, negated for NA
rows. -/

/-- Decode rule from `src/c/types.h`: the `i`-th string is NA iff its
offset is negative. -/
def rowIsNA (offs : List Int) (i : Nat) : Prop :=
  offs.getD i 0 < 0

instance (offs : List Int) (i : Nat) : Decidable (rowIsNA offs i) := by
  unfold rowIsNA; infer_instance

/-- Decode rule from `src/c/types.h`:
`start(i) = i? abs(off(i-1)) - 1 : 0`. -/
def rowStart (offs : List Int) (i : Nat) : Int :=
  if i = 0 then 0 else |offs.getD (i - 1) 0| - 1

/-- Decode rule from `src/c/types.h`: `end(i) = off(i) - 1` for a present
row; an NA row's recorded end is `abs(off(i)) - 1`. -/
def rowEnd (offs : List Int) (i : Nat) : Int :=
  if 0 ≤ offs.getD i 0 then offs.getD i 0 - 1 else |offs.getD i 0| - 1

/-- Decode rule from `src/c/types.h`: `len(i) = end(i) - start(i)`. -/
def rowLen (offs : List Int) (i : Nat) : Int :=
  rowEnd offs i - rowStart offs i

/-- Well-formedness of a varchar offset array, from the construction rule
of `src/c/types.h`: "NA strings are encoded as negation of the previous
string's offset" (the phantom offset before row 0 being 1). -/
def WFOffsets (offs : List Int) : Prop :=
  ∀ i < offs.length, offs.getD i 0 < 0 →
    offs.getD i 0 = -(if i = 0 then 1 else |offs.getD (i - 1) 0|)

instance (offs : List Int) : Decidable (WFOffsets offs) := by
  unfold WFOffsets; infer_instance

/-- Modelled from the spec: the varchar encoder itself is not under
`src/`; per the spec, one offset is emitted per row while tracking the
cumulative payload length `cum`: `-(cum+1)` for an NA row, `cum+len+1`
for a present row of `len` bytes. -/
def varcharOffsetsAux : List (Option (List Nat)) → Nat → List Int
  | [], _ => []
  | none :: rs, cum => -(cum + 1 : Int) :: varcharOffsetsAux rs cum
  | some s :: rs, cum =>
      ((cum + s.length + 1 : Nat) : Int) :: varcharOffsetsAux rs (cum + s.length)

/-- Modelled from the spec: all non-NA byte payloads written contiguously,
in row order. -/
def varcharPayload (rows : List (Option (List Nat))) : List Nat :=
  (rows.filterMap id).flatten

/-- Modelled from the spec: the payload section is padded with the
reserved byte `0xFF` until its length is a multiple of 8. -/
def padTo8 (l : List Nat) : List Nat :=
  l ++ List.replicate ((8 - l.length % 8) % 8) 0xFF

/-- A constructed varchar column: payload-plus-padding section, offset
array, and the `offoff` metadata (byte offset of the offset section). -/
structure VarcharColumn where
  payload : List Nat
  offsets : List Int
  offoff  : Int
  deriving DecidableEq, Repr

/-- Modelled from the spec: the 32-bit varchar encoder.  The buffer is the
padded payload followed by the offset array; `offoff` records where the
offset section starts. -/
def encodeVarchar32 (rows : List (Option (List Nat))) : VarcharColumn :=
  let p := padTo8 (varcharPayload rows)
  ⟨p, varcharOffsetsAux rows 0, (p.length : Int)⟩

/-- Total byte size of a 32-bit varchar column's buffer: the payload
section plus 4 bytes per offset entry. -/
def bufferSize32 (c : VarcharColumn) : Int :=
  (c.payload.length : Int) + 4 * c.offsets.length

/-! ### Error kinds -/

/-- Error kinds surfaced by encoders/constructors, from the spec's error
handling design. -/
inductive DtError where
  | MalformedLayout
  | CapacityExceeded
  | TypeMismatch
  deriving DecidableEq, Repr

/-! ### Fixed-width string codec (`ST_STRING_FCHAR`) -/

/-- The reserved padding byte `0xFF` of the string codecs (not a valid
UTF-8 byte, per `src/c/types.h`). -/
def padByte : Nat := 0xFF

/-- Modelled from the spec: the fixed-width string encoder is not under
`src/`; per `ST_STRING_FCHAR` in the header, a string shorter than the
declared width `n` is right-padded with `0xFF`, and encoding a string
longer than `n` fails with a capacity error. -/
def encodeFixchar (n : Nat) (s : List Nat) : Except DtError (List Nat) :=
  if s.length ≤ n then .ok (s ++ List.replicate (n - s.length) padByte)
  else .error .CapacityExceeded

/-- Modelled from the spec: the fixed-width string decoder is not under
`src/`; per the spec, a row whose `width` bytes are all the padding byte
is NA, and otherwise trailing padding bytes are stripped. -/
def decodeFixchar (bytes : List Nat) : Option (List Nat) :=
  if bytes.all (· = padByte) then none
  else some ((bytes.reverse.dropWhile (· = padByte)).reverse)

/-! ### Dictionary (enum) string codec (`ST_STRING_UX_ENUM`) -/

/-- The three dictionary index widths. -/
inductive EnumWidth where
  | U1
  | U2
  | U4
  deriving DecidableEq, Repr

/-- The NA index sentinel for each dictionary index width, from
`src/c/types.h`: 255, 65535, `2^32 - 1`. -/
def enumNA : EnumWidth → Nat
  | .U1 => NA_U1
  | .U2 => NA_U2
  | .U4 => NA_U4

/-- The maximum level count each dictionary index width can address, from
`src/c/types.h`: "no more than 255 / 65535 / 2^32 distinct levels" minus
the reserved NA index, i.e. 255, 65535, `2^32 - 1`. -/
def enumLevelLimit : EnumWidth → Nat
  | .U1 => 255
  | .U2 => 65535
  | .U4 => 2 ^ 32 - 1

/-- Offsets delimiting each level's byte range in the shared level
buffer: `0, len l0, len l0 + len l1, ...` (level count + 1 entries). -/
def enumOffsets (levels : List (List Nat)) : List Nat :=
  (levels.map List.length).scanl (· + ·) 0

/-- Modelled from the spec: dictionary column construction is not under
`src/`; per the spec, construction fails with a capacity error when the
level count does not fit the chosen index width, and otherwise builds the
`EnumMeta` with the concatenated level buffer and the level offsets. -/
def makeEnumColumn (w : EnumWidth) (levels : List (List Nat)) :
    Except DtError Meta :=
  if levels.length ≤ enumLevelLimit w then
    .ok (.EnumMeta levels.flatten (enumOffsets levels)
          levels.length levels.flatten.length)
  else .error .CapacityExceeded

/-! ### Fixed-point decimal codec (`ST_REAL_I2`, `ST_REAL_I4`, `ST_REAL_I8`) -/

/-- Modelled from the spec: the decimal decoder is not under `src/`; per
`ST_REAL_IX` in the header, a stored `w`-bit integer decodes to NA iff it
is the width's minimum signed value, and otherwise to
`storedInteger / 10^scale`. -/
def decodeDecimal (w : Nat) (scale : Nat) (stored : Int) : Option ℚ :=
  if stored = minSigned w then none
  else some ((stored : ℚ) / 10 ^ scale)

/-! ### Floating-point NA sentinels (`ST_REAL_F4`, `ST_REAL_F8`) -/

/-- `NA_F4` bit pattern from `src/c/types.h`: `0x7F8007A2`. -/
def NA_F4_BITS : Nat := 0x7F8007A2

/-- `NA_F8` bit pattern from `src/c/types.h`: `0x7FF00000000007A2`. -/
def NA_F8_BITS : Nat := 0x7FF00000000007A2

/-- Modelled from the spec: the body of `ISNA_F4` (declared `inline` in
`src/c/types.h`) is not under `src/`; per the spec it is an exact
bit-pattern comparison with the designated 32-bit NA payload, not IEEE
value equality. -/
def ISNA_F4 (bits : Nat) : Bool := bits = NA_F4_BITS

/-- Modelled from the spec: the body of `ISNA_F8` (declared `inline` in
`src/c/types.h`) is not under `src/`; per the spec it is an exact
bit-pattern comparison with the designated 64-bit NA payload. -/
def ISNA_F8 (bits : Nat) : Bool := bits = NA_F8_BITS

/-- A 32-bit IEEE-754 pattern denotes a NaN or infinity iff its exponent
field (bits 23..30) is all ones. -/
def f4NaNOrInf (bits : Nat) : Prop := bits / 2 ^ 23 % 2 ^ 8 = 0xFF

instance (bits : Nat) : Decidable (f4NaNOrInf bits) := by
  unfold f4NaNOrInf; infer_instance

/-- A 64-bit IEEE-754 pattern denotes a NaN or infinity iff its exponent
field (bits 52..62) is all ones. -/
def f8NaNOrInf (bits : Nat) : Prop := bits / 2 ^ 52 % 2 ^ 11 = 0x7FF

instance (bits : Nat) : Decidable (f8NaNOrInf bits) := by
  unfold f8NaNOrInf; infer_instance

/-! ### Packed datetime codec (`ST_DATETIME_I8_PRTMN`) -/

/-- The field tuple of the `ST_DATETIME_I8_PRTMN` layout: concatenated
date parts `YYYY MM DD hh mm ss mmm uuu`. -/
structure DateParts where
  year        : Int
  month       : Nat
  day         : Nat
  hour        : Nat
  minute      : Nat
  second      : Nat
  millisecond : Nat
  microsecond : Nat
  deriving DecidableEq, Repr

/-- Each field fits its declared bit width, from `src/c/types.h`: year 18
bits signed, month 4, day 5, hour 5, minute 6, second 6, millisecond 10,
microsecond 10. -/
def validParts (p : DateParts) : Prop :=
  -(2 ^ 17) ≤ p.year ∧ p.year < 2 ^ 17 ∧ p.month < 2 ^ 4 ∧ p.day < 2 ^ 5 ∧
  p.hour < 2 ^ 5 ∧ p.minute < 2 ^ 6 ∧ p.second < 2 ^ 6 ∧
  p.millisecond < 2 ^ 10 ∧ p.microsecond < 2 ^ 10

instance (p : DateParts) : Decidable (validParts p) := by
  unfold validParts; infer_instance

/-- The 64-bit two's-complement word concatenating the fields at their
declared positions (year in the top 18 bits, then month, day, hour,
minute, second, millisecond, microsecond). -/
def packBits (p : DateParts) : Nat :=
  (p.year % 2 ^ 18).toNat * 2 ^ 46 + p.month * 2 ^ 42 + p.day * 2 ^ 37 +
  p.hour * 2 ^ 32 + p.minute * 2 ^ 26 + p.second * 2 ^ 20 +
  p.millisecond * 2 ^ 10 + p.microsecond

/-- Reinterpret a 64-bit word as a signed two's-complement value. -/
def toSigned64 (n : Nat) : Int :=
  if n < 2 ^ 63 then (n : Int) else (n : Int) - 2 ^ 64

/-- Modelled from the spec: the packed-datetime encoder is not under
`src/`; per the spec, a field combination outside its declared bit widths
is rejected as malformed rather than silently truncated, and a valid
tuple is bit-packed into a signed 64-bit value. -/
def packDatetime (p : DateParts) : Except DtError Int :=
  if validParts p then .ok (toSigned64 (packBits p))
  else .error .MalformedLayout

/-- Modelled from the spec: the packed-datetime decoder is not under
`src/`; it extracts each field from its bit position of the stored 64-bit
word, the top 18-bit year being sign-extended. -/
def unpackDatetime (v : Int) : DateParts :=
  let n : Nat := (v % 2 ^ 64).toNat
  let yb : Nat := n / 2 ^ 46 % 2 ^ 18
  ⟨if yb < 2 ^ 17 then (yb : Int) else (yb : Int) - 2 ^ 18,
   n / 2 ^ 42 % 2 ^ 4, n / 2 ^ 37 % 2 ^ 5, n / 2 ^ 32 % 2 ^ 5,
   n / 2 ^ 26 % 2 ^ 6, n / 2 ^ 20 % 2 ^ 6, n / 2 ^ 10 % 2 ^ 10,
   n % 2 ^ 10⟩

/-! ### MUTF-8 string encoding (`LT_STRING`) -/

/-- MUTF-8 encoding of one Unicode codepoint, from the `LT_STRING`
documentation in `src/c/types.h`: regular UTF-8 except that the null
character is encoded as the two bytes `0xC0 0x80` rather than `0x00`. -/
def mutf8EncodeChar (c : Nat) : List Nat :=
  if c = 0 then [0xC0, 0x80]
  else if c < 0x80 then [c]
  else if c < 0x800 then [0xC0 + c / 64, 0x80 + c % 64]
  else if c < 0x10000 then
    [0xE0 + c / 4096, 0x80 + c / 64 % 64, 0x80 + c % 64]
  else
    [0xF0 + c / 262144, 0x80 + c / 4096 % 64, 0x80 + c / 64 % 64,
     0x80 + c % 64]

/-- MUTF-8 encoding of a codepoint sequence. -/
def mutf8Encode (cs : List Nat) : List Nat :=
  (cs.map mutf8EncodeChar).flatten

/-! ### Helper lemmas -/

/-- The varchar encoder emits exactly one offset per row. -/
theorem varcharOffsetsAux_length (rows : List (Option (List Nat)))
    (cum : Nat) : (varcharOffsetsAux rows cum).length = rows.length := by
  induction rows generalizing cum with
  | nil => rfl
  | cons r rs ih => cases r <;> simp [varcharOffsetsAux, ih]

/-! ### Claim theorems -/

/-- C1: for a variable-width string column, row `i` is NA iff its raw
offset is negative; the start offset is `0` for row 0 and
`abs(offsetArray[i-1]) - 1` otherwise; the end offset is `rawOff - 1` for
a present row and `abs(rawOff) - 1` for an NA row; the decoded length is
`end - start`; and on a well-formed offset array every NA row has
length 0. -/
theorem varchar_decode_rule (offs : List Int) (i : Nat)
    (hi : i < offs.length) (hwf : WFOffsets offs) :
    (rowIsNA offs i ↔ offs.getD i 0 < 0) ∧
    rowStart offs i = (if i = 0 then 0 else |offs.getD (i - 1) 0| - 1) ∧
    rowEnd offs i =
      (if 0 ≤ offs.getD i 0 then offs.getD i 0 - 1
       else |offs.getD i 0| - 1) ∧
    rowLen offs i = rowEnd offs i - rowStart offs i ∧
    (rowIsNA offs i → rowLen offs i = 0) := by
  refine ⟨Iff.rfl, rfl, rfl, rfl, ?_⟩
  intro hna
  have h := hwf i hi hna
  have hne : ¬ (0 ≤ offs.getD i 0) := not_le.mpr hna
  unfold rowLen rowEnd rowStart
  rw [if_neg hne, h, abs_neg]
  by_cases h0 : i = 0
  · rw [if_pos h0, if_pos h0]
    norm_num
  · rw [if_neg h0, if_neg h0, abs_abs]
    ring

/-- Witness for C1 at the source's worked example `[-1, 6, 6, -6]`,
row 3 (an NA row). -/
theorem varchar_decode_rule_witness :
    (3 < ([-1, 6, 6, -6] : List Int).length) ∧
    WFOffsets [-1, 6, 6, -6] ∧ rowIsNA [-1, 6, 6, -6] 3 ∧
    rowLen [-1, 6, 6, -6] 3 = 0 :=
  ⟨by decide, by decide, by decide,
   (varchar_decode_rule [-1, 6, 6, -6] 3 (by decide) (by decide)).2.2.2.2
     (by decide)⟩

/-- C2: encoding `[NA, "hello", "", NA]` as a 32-bit varchar column gives
a 24-byte buffer — payload `hello`, three `0xFF` padding bytes, offsets
`[-1, 6, 6, -6]` — with `offoff = 8`; and in general the buffer size
equals `offoff + 4 * rowCount`. -/
theorem varchar_encode_example_and_size :
    encodeVarchar32 [none, some [104, 101, 108, 108, 111], some [], none] =
      ⟨[104, 101, 108, 108, 111, 0xFF, 0xFF, 0xFF], [-1, 6, 6, -6], 8⟩ ∧
    bufferSize32
      (encodeVarchar32
        [none, some [104, 101, 108, 108, 111], some [], none]) = 24 ∧
    ∀ rows, bufferSize32 (encodeVarchar32 rows) =
      (encodeVarchar32 rows).offoff + 4 * rows.length := by
  refine ⟨by decide, by decide, ?_⟩
  intro rows
  unfold bufferSize32 encodeVarchar32
  simp [varcharOffsetsAux_length]

/-- C3: `ISNA_F4` is true for exactly the designated 32-bit NA payload
`0x7F8007A2` and false for every other bit pattern; `0x7FC00000` is a NaN
pattern yet not NA; a non-NA NaN/infinity pattern is never reclassified
as NA; likewise `ISNA_F8` with `0x7FF00000000007A2`. -/
theorem isna_float_bit_exact :
    (∀ b, ISNA_F4 b = true ↔ b = 0x7F8007A2) ∧
    ISNA_F4 0x7FC00000 = false ∧
    f4NaNOrInf 0x7FC00000 ∧ f4NaNOrInf NA_F4_BITS ∧
    (∀ b, f4NaNOrInf b → b ≠ NA_F4_BITS → ISNA_F4 b = false) ∧
    (∀ b, ISNA_F8 b = true ↔ b = 0x7FF00000000007A2) ∧
    ISNA_F8 0x7FF8000000000000 = false ∧
    f8NaNOrInf 0x7FF8000000000000 := by
  refine ⟨?_, by decide, by decide, by decide, ?_, ?_, by decide, by decide⟩
  · intro b
    simp [ISNA_F4, NA_F4_BITS]
  · intro b _ hb
    simp [ISNA_F4]
    exact hb
  · intro b
    simp [ISNA_F8, NA_F8_BITS]

/-- Witness for C3: `0x7FE00001` is a NaN pattern distinct from the NA
payload and is not classified as NA. -/
theorem isna_float_bit_exact_witness :
    f4NaNOrInf 0x7FE00001 ∧ (0x7FE00001 : Nat) ≠ NA_F4_BITS ∧
    ISNA_F4 0x7FE00001 = false :=
  ⟨by decide, by decide,
   isna_float_bit_exact.2.2.2.2.1 0x7FE00001 (by decide) (by decide)⟩

/-- C4: the NA sentinel of every signed integer-backed storage width `w`
in 8/16/32/64 bits is the minimum representable value `-2^(w-1)`, and the
non-NA representable integers are exactly the symmetric range
`-(2^(w-1)-1) .. 2^(w-1)-1` (stated for all widths `w`). -/
theorem integer_na_min_signed :
    NA_I1 = minSigned 8 ∧ NA_I2 = minSigned 16 ∧
    NA_I4 = minSigned 32 ∧ NA_I8 = minSigned 64 ∧
    NA_I1 = -128 ∧ NA_I2 = -32768 ∧ NA_I4 = -2147483648 ∧
    NA_I8 = -9223372036854775808 ∧
    ∀ w : Nat, ∀ x : Int,
      (representable w x ∧ x ≠ minSigned w) ↔
      (-(2 ^ (w - 1) - 1) ≤ x ∧ x ≤ 2 ^ (w - 1) - 1) := by
  refine ⟨rfl, rfl, rfl, rfl, by decide, by decide, by decide, by decide, ?_⟩
  intro w x
  unfold representable minSigned
  have ht : (0 : Int) < 2 ^ (w - 1) := by positivity
  constructor
  · rintro ⟨⟨h1, h2⟩, h3⟩
    omega
  · rintro ⟨h1, h2⟩
    refine ⟨⟨by omega, by omega⟩, by omega⟩

/-- C5: the storage-type registry has exactly 23 variants with stable
ordinals 0 through 22 (`ST_VOID = 0` to `ST_OBJECT_PYPTR = 22`); every
variant, the void placeholder included, has exactly one `stype_info` row
mapping it to one of the 8 logical types; and `hasmeta` exactly predicts
whether a metadata shape exists for that storage type. -/
theorem registry_totality :
    DT_STYPES_COUNT = 23 ∧
    Fintype.card SType = 23 ∧
    Fintype.card LType = 8 ∧
    (∀ s : SType, s.toOrdinal < 23) ∧
    Function.Injective SType.toOrdinal ∧
    (∀ k, k < 23 → ∃ s : SType, s.toOrdinal = k) ∧
    SType.ST_VOID.toOrdinal = 0 ∧ SType.ST_OBJECT_PYPTR.toOrdinal = 22 ∧
    (∀ s : SType, (stype_info s).hasmeta = true ↔ (metaShapeFor s).isSome) := by
  refine ⟨rfl, by decide, by decide, by decide, ?_, by decide, rfl, rfl, ?_⟩
  · intro a b h
    revert h
    cases a <;> cases b <;> decide
  · intro s
    cases s <;> simp [stype_info, metaShapeFor]

/-- Witness for C5: ordinal 11 is attained (by `ST_STRING_I4_VCHAR`). -/
theorem registry_totality_witness :
    (11 < 23) ∧ ∃ s : SType, s.toOrdinal = 11 :=
  ⟨by decide, registry_totality.2.2.2.2.2.1 11 (by decide)⟩

/-- C6: a fixed-point decimal with storage width `w` and scale `s`
decodes a stored integer to NA iff it equals `-2^(w-1)`, and otherwise to
the rational `storedInteger / 10^s`; with 32-bit width and scale 2,
stored 711 decodes to 7.11. -/
theorem decimal_decode :
    (∀ w scale stored, decodeDecimal w scale stored = none ↔
        stored = minSigned w) ∧
    (∀ w scale stored, stored ≠ minSigned w →
        decodeDecimal w scale stored = some ((stored : ℚ) / 10 ^ scale)) ∧
    decodeDecimal 32 2 711 = some (7.11 : ℚ) ∧
    decodeDecimal 32 2 (minSigned 32) = none := by
  refine ⟨?_, ?_, ?_, ?_⟩
  · intro w scale stored
    unfold decodeDecimal
    split <;> simp_all
  · intro w scale stored h
    unfold decodeDecimal
    rw [if_neg h]
  · unfold decodeDecimal minSigned
    rw [if_neg (by norm_num)]
    norm_num
  · simp [decodeDecimal]

/-- Witness for C6: stored integer 5 at width 16, scale 1, is not the
sentinel and decodes to 1/2. -/
theorem decimal_decode_witness :
    (5 : Int) ≠ minSigned 16 ∧
    decodeDecimal 16 1 5 = some ((5 : ℚ) / 10 ^ 1) :=
  ⟨by decide, decimal_decode.2.1 16 1 5 (by decide)⟩

/-- A valid field tuple packs into a 64-bit word. -/
theorem packBits_lt (p : DateParts) (h : validParts p) :
    packBits p < 2 ^ 64 := by
  obtain ⟨y, mo, d, hh, mi, s, ms, us⟩ := p
  simp only [validParts] at h
  obtain ⟨h1, h2, h3, h4, h5, h6, h7, h8, h9⟩ := h
  simp only [packBits]
  omega

/-- Reading back the 64 bits of a signed two's-complement reinterpretation
recovers the original word. -/
theorem toSigned64_roundtrip (n : Nat) (h : n < 2 ^ 64) :
    ((toSigned64 n) % 2 ^ 64).toNat = n := by
  unfold toSigned64
  split <;> omega

/-- Unpacking the packed bits of a valid field tuple recovers the tuple. -/
theorem unpack_packBits (p : DateParts) (h : validParts p) :
    unpackDatetime (toSigned64 (packBits p)) = p := by
  have hlt : packBits p < 2 ^ 64 := packBits_lt p h
  obtain ⟨y, mo, d, hh, mi, s, ms, us⟩ := p
  simp only [validParts] at h
  obtain ⟨h1, h2, h3, h4, h5, h6, h7, h8, h9⟩ := h
  simp only [unpackDatetime]
  rw [toSigned64_roundtrip _ hlt]
  simp only [packBits, DateParts.mk.injEq]
  refine ⟨?_, ?_, ?_, ?_, ?_, ?_, ?_, ?_⟩
  · split <;> omega
  all_goals omega

/-- C7: for every field tuple within the declared bit widths of the
`ST_DATETIME_I8_PRTMN` codec (year 18 bits signed, month 4, day 5,
hour 5, minute 6, second 6, millisecond 10, microsecond 10, totalling 64
bits), packing succeeds and unpacking the packed value reproduces the
tuple; a tuple with any field outside its declared width is rejected as
malformed rather than silently truncated. -/
theorem packed_datetime_bijection (p : DateParts) (h : validParts p) :
    packDatetime p = .ok (toSigned64 (packBits p)) ∧
    unpackDatetime (toSigned64 (packBits p)) = p ∧
    ∀ q : DateParts, ¬ validParts q →
      packDatetime q = .error .MalformedLayout := by
  refine ⟨?_, unpack_packBits p h, ?_⟩
  · unfold packDatetime
    rw [if_pos h]
  · intro q hq
    unfold packDatetime
    rw [if_neg hq]

/-- Witness for C7 at the spec's example tuple 2023-06-15 00:00:00.000000,
plus rejection of an out-of-range month. -/
theorem packed_datetime_bijection_witness :
    validParts ⟨2023, 6, 15, 0, 0, 0, 0, 0⟩ ∧
    unpackDatetime (toSigned64 (packBits ⟨2023, 6, 15, 0, 0, 0, 0, 0⟩)) =
      ⟨2023, 6, 15, 0, 0, 0, 0, 0⟩ ∧
    packDatetime ⟨2023, 16, 15, 0, 0, 0, 0, 0⟩ =
      .error .MalformedLayout :=
  ⟨by decide,
   (packed_datetime_bijection ⟨2023, 6, 15, 0, 0, 0, 0, 0⟩ (by decide)).2.1,
   (packed_datetime_bijection ⟨2023, 6, 15, 0, 0, 0, 0, 0⟩ (by decide)).2.2
     ⟨2023, 16, 15, 0, 0, 0, 0, 0⟩ (by decide)⟩

/-- C8: for each dictionary index width, constructing a dictionary column
succeeds when the level count is at most the width's limit (255, 65535,
`2^32 - 1`, which equals that width's NA index sentinel) and fails with
`CapacityExceeded` when the level count is one above the limit. -/
theorem enum_capacity (w : EnumWidth) (levels : List (List Nat)) :
    (levels.length ≤ enumLevelLimit w →
       makeEnumColumn w levels =
         .ok (.EnumMeta levels.flatten (enumOffsets levels)
               levels.length levels.flatten.length)) ∧
    (levels.length = enumLevelLimit w + 1 →
       makeEnumColumn w levels = .error .CapacityExceeded) ∧
    enumLevelLimit w = enumNA w := by
  refine ⟨?_, ?_, ?_⟩
  · intro h
    unfold makeEnumColumn
    rw [if_pos h]
  · intro h
    unfold makeEnumColumn
    rw [if_neg (by omega)]
  · cases w <;> rfl

/-- Witness for C8 at the 8-bit width: 255 (empty) levels succeed, 256
fail. -/
theorem enum_capacity_witness :
    makeEnumColumn .U1 (List.replicate 255 []) =
      .ok (.EnumMeta (List.replicate 255 ([] : List Nat)).flatten
            (enumOffsets (List.replicate 255 []))
            (List.replicate 255 ([] : List Nat)).length
            (List.replicate 255 ([] : List Nat)).flatten.length) ∧
    makeEnumColumn .U1 (List.replicate 256 []) = .error .CapacityExceeded :=
  ⟨(enum_capacity .U1 (List.replicate 255 [])).1
     (by rw [List.length_replicate]; norm_num [enumLevelLimit]),
   (enum_capacity .U1 (List.replicate 256 [])).2.1
     (by rw [List.length_replicate]; norm_num [enumLevelLimit])⟩

/-- Dropping a leading run of a byte satisfying the predicate reduces to
dropping on the tail list. -/
theorem dropWhile_replicate_append (p : Nat → Bool) (b : Nat)
    (hp : p b = true) (k : Nat) (l : List Nat) :
    (List.replicate k b ++ l).dropWhile p = l.dropWhile p := by
  induction k with
  | zero => simp
  | succ n ih => simp [List.replicate_succ, List.dropWhile_cons, hp, ih]

/-- Decoding a string followed by any run of padding bytes strips exactly
the padding, provided the string is nonempty and does not itself end in
the padding byte. -/
theorem decodeFixchar_strip (s : List Nat) (k : Nat) (hs : s ≠ [])
    (hl : s.getLast? ≠ some padByte) :
    decodeFixchar (s ++ List.replicate k padByte) = some s := by
  obtain ⟨a, t, hrev⟩ : ∃ a t, s.reverse = a :: t := by
    cases hr : s.reverse with
    | nil =>
        exact absurd (by simpa using congrArg List.reverse hr) hs
    | cons a t => exact ⟨a, t, rfl⟩
  have ha : s.getLast? = some a := by
    rw [← List.head?_reverse, hrev]; rfl
  have hane : a ≠ padByte := fun h => hl (by rwa [h] at ha)
  have hmem : a ∈ s := by
    rw [← List.mem_reverse, hrev]; exact List.mem_cons_self a t
  unfold decodeFixchar
  split_ifs with hall
  · exfalso
    simp only [List.all_eq_true, decide_eq_true_eq] at hall
    exact hane (hall a (List.mem_append_left _ hmem))
  · congr 1
    rw [List.reverse_append, List.reverse_replicate,
        dropWhile_replicate_append _ _ (by simp), hrev,
        List.dropWhile_cons_of_neg (by simp [hane]), ← hrev,
        List.reverse_reverse]

/-- C9: under the fixed-width string codec with width `n`, a row is NA
iff all its bytes are the padding byte `0xFF`; a present string shorter
than `n` is right-padded with that byte; decoding strips trailing
padding (so `"ab"` at width 4 encodes to `a,b,pad,pad` and decodes back
to `"ab"`); and encoding fails with a capacity error whenever the byte
length exceeds `n`. -/
theorem fixchar_codec :
    (∀ bytes, decodeFixchar bytes = none ↔ ∀ b ∈ bytes, b = padByte) ∧
    (∀ n s, s.length ≤ n →
       encodeFixchar n s = .ok (s ++ List.replicate (n - s.length) padByte)) ∧
    (∀ n s, n < s.length → encodeFixchar n s = .error .CapacityExceeded) ∧
    (∀ n s, s ≠ [] → s.getLast? ≠ some padByte →
       decodeFixchar (s ++ List.replicate (n - s.length) padByte) = some s) ∧
    encodeFixchar 4 [0x61, 0x62] = .ok [0x61, 0x62, padByte, padByte] ∧
    decodeFixchar [0x61, 0x62, padByte, padByte] = some [0x61, 0x62] := by
  refine ⟨?_, ?_, ?_, ?_, by rfl, by rfl⟩
  · intro bytes
    unfold decodeFixchar
    split_ifs with h
    · simp only [List.all_eq_true, decide_eq_true_eq] at h
      exact iff_of_true rfl h
    · simp only [List.all_eq_true, decide_eq_true_eq] at h
      exact iff_of_false (by simp) h
  · intro n s h
    unfold encodeFixchar
    rw [if_pos h]
  · intro n s h
    unfold encodeFixchar
    rw [if_neg (by omega)]
  · intro n s hs hl
    exact decodeFixchar_strip s (n - s.length) hs hl

/-- Witness for C9: `"a"` at width 4 round-trips through padding, and a
2-byte string fails at width 1. -/
theorem fixchar_codec_witness :
    ([0x61] : List Nat).length ≤ 4 ∧
    encodeFixchar 4 [0x61] =
      .ok ([0x61] ++ List.replicate (4 - ([0x61] : List Nat).length) padByte) ∧
    decodeFixchar
      ([0x61] ++ List.replicate (4 - ([0x61] : List Nat).length) padByte) =
      some [0x61] ∧
    encodeFixchar 1 [1, 2] = .error .CapacityExceeded :=
  ⟨by decide,
   fixchar_codec.2.1 4 [0x61] (by decide),
   fixchar_codec.2.2.2.1 4 [0x61] (by decide) (by decide),
   fixchar_codec.2.2.1 1 [1, 2] (by decide)⟩

/-- Every byte emitted by the MUTF-8 encoder for a codepoint in Unicode
range is strictly between `0x00` and `0xFF`. -/
theorem mutf8EncodeChar_bytes (c : Nat) (h : c ≤ 0x10FFFF) :
    ∀ b ∈ mutf8EncodeChar c, 0 < b ∧ b < 0xFF := by
  intro b hb
  unfold mutf8EncodeChar at hb
  split_ifs at hb with h0 h1 h2 h3
  · simp only [List.mem_cons, List.not_mem_nil, or_false] at hb
    rcases hb with rfl | rfl <;> omega
  · simp only [List.mem_cons, List.not_mem_nil, or_false] at hb
    subst hb
    omega
  · simp only [List.mem_cons, List.not_mem_nil, or_false] at hb
    rcases hb with rfl | rfl <;> omega
  · simp only [List.mem_cons, List.not_mem_nil, or_false] at hb
    rcases hb with rfl | rfl | rfl <;> omega
  · simp only [List.mem_cons, List.not_mem_nil, or_false] at hb
    rcases hb with rfl | rfl | rfl | rfl <;> omega

/-- C10: string content is MUTF-8: the NUL character is encoded as the
two bytes `0xC0 0x80`, so the byte `0x00` never appears inside encoded
string data, and `0xFF` (never a valid UTF-8 byte) is likewise never
emitted, making it an unambiguous padding byte. -/
theorem mutf8_no_nul_no_ff (cs : List Nat)
    (h : ∀ c ∈ cs, c ≤ 0x10FFFF) :
    mutf8EncodeChar 0 = [0xC0, 0x80] ∧
    ∀ b ∈ mutf8Encode cs, b ≠ 0x00 ∧ b ≠ 0xFF := by
  refine ⟨rfl, ?_⟩
  intro b hb
  unfold mutf8Encode at hb
  rw [List.mem_flatten] at hb
  obtain ⟨l, hl, hbl⟩ := hb
  rw [List.mem_map] at hl
  obtain ⟨c, hc, rfl⟩ := hl
  have := mutf8EncodeChar_bytes c (h c hc) b hbl
  omega

/-- Witness for C10 on the codepoints `[NUL, 'h', U+10FFFF]`. -/
theorem mutf8_no_nul_no_ff_witness :
    (∀ c ∈ [0, 104, 0x10FFFF], c ≤ 0x10FFFF) ∧
    ∀ b ∈ mutf8Encode [0, 104, 0x10FFFF], b ≠ 0x00 ∧ b ≠ 0xFF :=
  ⟨by decide, (mutf8_no_nul_no_ff [0, 104, 0x10FFFF] (by decide)).2⟩

end DT
